import Mathlib

/-!
Verification of the OPA test/coverage report scripts
(`opa_test_to_junit.py`, `opa_coverage_to_junit.py`, `opa_combined_junit.py`,
`opa_coverage_to_cobertura.py`) against their natural-language specification.

The Python scripts are shallowly embedded: dictionaries become association
lists (Python dicts have unique keys and preserve insertion order, which an
association list built by find-or-create mirrors), floats become rationals
(faithful for all values the programs compare and round, with Python's
`round` modelled as round-half-to-even, which is what CPython implements on
exactly representable values), and f-string output lines become constructors
of an inductive `DetailLine` type carrying the same data, so that no
floating-point-to-decimal rendering needs to be modelled.

String primitives (`str.split`, `str.endswith`, slicing, `str.join`) are
embedded as structurally recursive functions over character lists so that
every definition evaluates inside the kernel.
-/

/-- Auxiliary for `splitChar`: walks the character list, cutting at each
separator; models Python `str.split(sep)` for a one-character separator
(note `"".split(".") == [""]` and empty segments are kept). -/
def splitCharAux (sep : Char) : List Char → List Char → List String
  | [], acc => [String.mk acc.reverse]
  | c :: cs, acc =>
    if c = sep then String.mk acc.reverse :: splitCharAux sep cs []
    else splitCharAux sep cs (c :: acc)

/-- Python `s.split(sep)` for a single-character separator. -/
def splitChar (sep : Char) (s : String) : List String :=
  splitCharAux sep s.toList []

/-- Python `sep.join(parts)` (equivalently `String.intercalate`). -/
def joinSep (sep : String) : List String → String
  | [] => ""
  | [x] => x
  | x :: y :: rest => x ++ sep ++ joinSep sep (y :: rest)

/-- Python `s.endswith(suffix)`. -/
def endsWithStr (suffix s : String) : Bool :=
  suffix.toList.isSuffixOf s.toList

/-- Python `s[:-n]` for `0 < n ≤ len(s)`: drop the last `n` characters. -/
def dropRightStr (s : String) (n : Nat) : String :=
  String.mk (s.toList.take (s.toList.length - n))

/-- Python `path.split("/")[-1]`: the final path segment. -/
def lastSegment (path : String) : String :=
  (splitChar '/' path).getLastD ""

/-- Lexicographic comparison of character lists by code point, as Python
`sorted` uses on strings. -/
def lexLe : List Char → List Char → Bool
  | [], _ => true
  | _ :: _, [] => false
  | a :: as, b :: bs => if a = b then lexLe as bs else decide (a < b)

/-- Python string `<=` (lexicographic by code point). -/
def strLe (a b : String) : Bool := lexLe a.toList b.toList

/-- Insert into a sorted list, keeping stability; auxiliary for `sortBy`. -/
def insertBy (le : α → α → Bool) (x : α) : List α → List α
  | [] => [x]
  | y :: ys => if le x y then x :: y :: ys else y :: insertBy le x ys

/-- Insertion sort; models Python `sorted(...)` (only membership and
determinism are relied upon by the theorems below). -/
def sortBy (le : α → α → Bool) : List α → List α
  | [] => []
  | x :: xs => insertBy le x (sortBy le xs)

/-- Concatenation of the images of `f`; models building a list across a
Python `for` loop that appends several lines per element. -/
def concatMap (f : α → List β) : List α → List β
  | [] => []
  | x :: xs => f x ++ concatMap f xs

/-- Addition of rationals, written through `mkRat` so that it evaluates
inside the kernel (`Rat.add` is `@[irreducible]`); proved equal to `+` in
`qAdd_eq` below. -/
def qAdd (a b : ℚ) : ℚ := mkRat (a.num * b.den + b.num * a.den) (a.den * b.den)

/-- Division of a rational by a natural number, written through `mkRat` so
that it evaluates inside the kernel; proved equal to `/` in `qDivNat_eq`
below. -/
def qDivNat (a : ℚ) (n : Nat) : ℚ := mkRat a.num (a.den * n)

/-- Python `round(value, 2)`: the `_round_percentage` helper of
`opa_coverage_to_junit.py` (line 21) and `opa_combined_junit.py` (line 26).
CPython `round` on a float rounds its exact binary value to the nearest
two-decimal value, ties to even; on rationals this is: let `n = ⌊100q⌋` and
compare the fractional part of `100q` with 1/2 (all in integer arithmetic on
`q.num`, `q.den`), then divide the chosen integer by 100. -/
def pyRound2 (q : ℚ) : ℚ :=
  let n := Int.fdiv (q.num * 100) q.den
  let fracNum := q.num * 100 - n * q.den
  let r :=
    if 2 * fracNum < (q.den : ℤ) then n
    else if (q.den : ℤ) < 2 * fracNum then n + 1
    else if n % 2 = 0 then n else n + 1
  mkRat r 100

/-- Modelled from the spec: the rounding rule the specification claims
(`§4.3`: "rounded to 2 decimal places (half-up)"), for comparison with the
code's `pyRound2`: half-up rounds a value whose third decimal digit is
exactly 5 away from zero, i.e. `⌊100q + 1/2⌋ / 100` for non-negative `q`. -/
def roundHalfUp2Spec (q : ℚ) : ℚ :=
  mkRat (Int.fdiv (200 * q.num + q.den) (2 * q.den)) 100

/-- Strip a leading `data` segment when the package has more than one
segment: `opa_test_to_junit.py` lines 43-44, `opa_combined_junit.py`
lines 48-49. -/
def stripDataSeg : List String → List String
  | p :: q :: rest => if p = "data" then q :: rest else p :: q :: rest
  | parts => parts

/-- Strip a trailing `_test` marker from the final segment:
`opa_test_to_junit.py` lines 46-47, `opa_combined_junit.py` lines 51-52. -/
def stripTestSeg : List String → List String
  | [] => []
  | [x] => if endsWithStr "_test" x then [dropRightStr x 5] else [x]
  | x :: y :: rest => x :: stripTestSeg (y :: rest)

/-- The test-side name normalizer: split the dotted package identifier,
strip a leading `data` segment, strip a trailing `_test` marker from the
last segment, and rejoin with `.` (`opa_test_to_junit.py` lines 42-49,
`opa_combined_junit.py` lines 47-54). -/
def policyName (pkg : String) : String :=
  joinSep "." (stripTestSeg (stripDataSeg (splitChar '.' pkg)))

/-- One OPA test record as consumed by the scripts: `fail` is
`test.get("fail", False)`, `error` and `skip` are the truthiness of the
optional error/skip objects (`test.get("error")`, `test.get("skip")`), and
`file`/`row` are `test["location"]`. -/
structure TestRecord where
  package : String
  name : String
  duration : Nat
  fail : Bool
  error : Bool
  skip : Bool
  file : String
  row : Nat
deriving DecidableEq

/-- The per-policy accumulator created by the `defaultdict` at
`opa_test_to_junit.py` lines 29-38 / `opa_combined_junit.py` lines 34-43. -/
structure TestGroup where
  tests : List TestRecord
  package : Option String
  duration : Nat
  failures : Nat
  errors : Nat
  skipped : Nat
deriving DecidableEq

/-- The `defaultdict` default: an empty policy group. -/
def emptyTestGroup : TestGroup :=
  { tests := [], package := none, duration := 0, failures := 0, errors := 0, skipped := 0 }

/-- Fold one test into its group: `opa_test_to_junit.py` lines 51-61 /
`opa_combined_junit.py` lines 56-66. -/
def addTest (k : String) (g : TestGroup) (t : TestRecord) : TestGroup :=
  { tests := g.tests ++ [t]
    package := some k
    duration := g.duration + t.duration
    failures := g.failures + (if t.fail then 1 else 0)
    errors := g.errors + (if t.error then 1 else 0)
    skipped := g.skipped + (if t.skip then 1 else 0) }

/-- Find-or-create update of the insertion-ordered policy-group mapping
(`policy_groups[policy_name]` on a `defaultdict`). -/
def testUpdateAssoc (m : List (String × TestGroup)) (k : String) (t : TestRecord) :
    List (String × TestGroup) :=
  match m with
  | [] => [(k, addTest k emptyTestGroup t)]
  | (k0, g) :: rest =>
    if k0 = k then (k0, addTest k0 g t) :: rest
    else (k0, g) :: testUpdateAssoc rest k t

/-- Group test records by normalized policy name: the loop at
`opa_test_to_junit.py` lines 40-61, shared verbatim with
`opa_combined_junit.py` lines 45-66. -/
def policyGroupsOfTests (data : List TestRecord) : List (String × TestGroup) :=
  data.foldl (fun m t => testUpdateAssoc m (policyName t.package) t) []

/-- An inclusive line range from the OPA coverage JSON
(`{"start": {"row": a}, "end": {"row": b}}`). -/
structure LineRange where
  startRow : Nat
  endRow : Nat
deriving DecidableEq

/-- One file's entry in the coverage JSON `files` mapping. `covered_lines` /
`not_covered_lines` are optional (the scripts branch on key presence);
`covered` / `not_covered` region lists default to empty when absent (the
scripts only iterate them or test truthiness, which cannot distinguish a
missing key from an empty list). -/
structure CoverageFileData where
  coverage : ℚ
  covered_lines : Option Nat
  not_covered_lines : Option Nat
  covered : List LineRange
  not_covered : List LineRange
deriving DecidableEq

instance : Inhabited CoverageFileData := ⟨⟨0, none, none, [], []⟩⟩

/-- The top-level coverage JSON object: overall percentage, overall line
counts, and the per-file mapping (a Python dict, embedded as an
insertion-ordered association list with unique keys). -/
structure CoverageData where
  coverage : ℚ
  covered_lines : Nat
  not_covered_lines : Nat
  files : List (String × CoverageFileData)
deriving DecidableEq

/-- Python `coverage_data["files"][path]`: dictionary lookup (the scripts
only look up keys obtained from the same dictionary, so the default branch
is never taken on inputs satisfying the dict-key invariant). -/
def lookupFileData (files : List (String × CoverageFileData)) (path : String) :
    CoverageFileData :=
  match files.find? (fun pr => decide (pr.1 = path)) with
  | some pr => pr.2
  | none => default

/-- The coverage-side policy-area name from a slash-separated path:
`opa_coverage_to_junit.py` lines 44-48 / `opa_combined_junit.py`
lines 188-192 (`"." .join(parts[1:-1])` under the `policy/` root, else
`"other"`). -/
def policyArea (path : String) : String :=
  let parts := splitChar '/' path
  if 3 ≤ parts.length ∧ parts.headD "" = "policy" then
    joinSep "." ((parts.drop 1).dropLast)
  else "other"

/-- The per-policy-area coverage accumulator created by the `defaultdict`
at `opa_coverage_to_junit.py` lines 29-38 / `opa_combined_junit.py`
lines 175-184. -/
structure CovGroup where
  files : List String
  total_coverage : ℚ
  file_count : Nat
  total_lines : Nat
  covered_lines : Nat
  not_covered_lines : Nat
deriving DecidableEq

/-- The `defaultdict` default: an empty coverage group. -/
def emptyCovGroup : CovGroup :=
  { files := [], total_coverage := 0, file_count := 0
    total_lines := 0, covered_lines := 0, not_covered_lines := 0 }

/-- Fold one file into its area group, coverage-only report variant:
`opa_coverage_to_junit.py` lines 51-63 (line totals accumulate whenever
`covered_lines` is present; `not_covered_lines` defaults to 0). -/
def covAddJunit (g : CovGroup) (path : String) (fd : CoverageFileData) : CovGroup :=
  let g1 := { g with files := g.files ++ [path]
                     total_coverage := qAdd g.total_coverage fd.coverage
                     file_count := g.file_count + 1 }
  match fd.covered_lines with
  | some covered =>
    let nc := fd.not_covered_lines.getD 0
    { g1 with total_lines := g1.total_lines + (covered + nc)
              covered_lines := g1.covered_lines + covered
              not_covered_lines := g1.not_covered_lines + nc }
  | none => g1

/-- Fold one file into its area group, combined report variant:
`opa_combined_junit.py` lines 195-207 (line totals accumulate only when
both `covered_lines` and `not_covered_lines` are present). -/
def covAddCombined (g : CovGroup) (path : String) (fd : CoverageFileData) : CovGroup :=
  let g1 := { g with files := g.files ++ [path]
                     total_coverage := qAdd g.total_coverage fd.coverage
                     file_count := g.file_count + 1 }
  match fd.covered_lines, fd.not_covered_lines with
  | some covered, some nc =>
    { g1 with total_lines := g1.total_lines + (covered + nc)
              covered_lines := g1.covered_lines + covered
              not_covered_lines := g1.not_covered_lines + nc }
  | _, _ => g1

/-- Find-or-create update of the insertion-ordered area-group mapping. -/
def covUpdateAssoc (add : CovGroup → String → CoverageFileData → CovGroup)
    (m : List (String × CovGroup)) (k path : String) (fd : CoverageFileData) :
    List (String × CovGroup) :=
  match m with
  | [] => [(k, add emptyCovGroup path fd)]
  | (k0, g) :: rest =>
    if k0 = k then (k0, add g path fd) :: rest
    else (k0, g) :: covUpdateAssoc add rest k path fd

/-- The filtered key list
`[f for f in coverage_data["files"] if not f.endswith("_test.rego")]`
(`opa_coverage_to_junit.py` line 41, `opa_combined_junit.py` line 185). -/
def policyFilePaths (d : CoverageData) : List String :=
  (d.files.map Prod.fst).filter (fun f => !(endsWithStr "_test.rego" f))

/-- Group coverage files by policy area, coverage-only report:
`opa_coverage_to_junit.py` lines 43-63. -/
def policyGroupsCovJunit (d : CoverageData) : List (String × CovGroup) :=
  (policyFilePaths d).foldl
    (fun m path => covUpdateAssoc covAddJunit m (policyArea path) path
      (lookupFileData d.files path)) []

/-- Group coverage files by policy area, combined report:
`opa_combined_junit.py` lines 187-207. -/
def policyGroupsCovCombined (d : CoverageData) : List (String × CovGroup) :=
  (policyFilePaths d).foldl
    (fun m path => covUpdateAssoc covAddCombined m (policyArea path) path
      (lookupFileData d.files path)) []

/-- The displayed average for a group:
`_round_percentage(group["total_coverage"] / group["file_count"])`
(`opa_coverage_to_junit.py` line 146, `opa_combined_junit.py` line 257). -/
def avgPercentage (g : CovGroup) : ℚ :=
  pyRound2 (qDivNat g.total_coverage g.file_count)

/-- One line of the free-text report body. Each constructor corresponds to
one f-string template in the Python sources, carrying the same data; the
numeric-literal rendering of a float is abstracted into the carried
rational. `fileLine`'s first field is the check-mark/cross status
(`True` for the success glyph). -/
inductive DetailLine where
  | reportHeader (overall : ℚ) (covered total : Nat)
  | thresholdLine (thr : ℚ)
  | separator
  | areaHeader (area : String) (avg : ℚ) (lineInfo : Option (Nat × Nat))
  | fileLine (ok : Bool) (filename : String) (cov : ℚ) (lineInfo : Option (Nat × Nat))
  | uncoveredHeader
  | regionSingle (n : Nat)
  | regionRange (a b : Nat)
  | moreRegions (count : Nat)
deriving DecidableEq

/-- Per-file detail block of the coverage-only report:
`opa_coverage_to_junit.py` lines 157-189. Uncovered regions are listed in
full when the (rounded) file coverage is below the threshold; a
single-line region renders as `Line N` (`regionSingle`), a multi-line one
as `Lines a-b` (`regionRange`). -/
def fileDetailJunit (d : CoverageData) (thr : ℚ) (path : String) : List DetailLine :=
  let fd := lookupFileData d.files path
  let file_coverage := pyRound2 fd.coverage
  let filename := lastSegment path
  let ok := decide (file_coverage = 100)
  match fd.covered_lines with
  | some covered =>
    let nc := fd.not_covered_lines.getD 0
    let total := covered + nc
    DetailLine.fileLine ok filename file_coverage (some (covered, total)) ::
    (if file_coverage < thr ∧ fd.not_covered ≠ [] then
       DetailLine.uncoveredHeader ::
       fd.not_covered.map (fun r =>
         if r.startRow = r.endRow then DetailLine.regionSingle r.startRow
         else DetailLine.regionRange r.startRow r.endRow)
     else [])
  | none => [DetailLine.fileLine ok filename file_coverage none]

/-- Per-file detail block of the combined report:
`opa_combined_junit.py` lines 310-344. Only the first 3 uncovered regions
are listed (`[:3]`), each as `Lines a-b` even when single-line, and a
`... and N more regions` summary line is appended when more than 3 exist. -/
def fileDetailCombined (d : CoverageData) (path : String) : List DetailLine :=
  let fd := lookupFileData d.files path
  let file_coverage := pyRound2 fd.coverage
  let filename := lastSegment path
  let ok := decide (file_coverage = 100)
  match fd.covered_lines, fd.not_covered_lines with
  | some covered, some nc =>
    DetailLine.fileLine ok filename file_coverage (some (covered, covered + nc)) ::
    (if file_coverage < 100 ∧ fd.not_covered ≠ [] then
       DetailLine.uncoveredHeader ::
       ((fd.not_covered.take 3).map (fun r =>
          DetailLine.regionRange r.startRow r.endRow) ++
        (if 3 < fd.not_covered.length then
           [DetailLine.moreRegions (fd.not_covered.length - 3)]
         else []))
     else [])
  | _, _ => [DetailLine.fileLine ok filename file_coverage none]

/-- The pieces of the coverage-only JUnit tree that the specification's
claims inspect: suite/testsuites failure counts, the single test case's
failure marking, and the `system-out` body. -/
structure CoverageOnlyReport where
  overall_coverage : ℚ
  total_lines : Nat
  suiteFailures : Nat
  testcaseFailed : Bool
  details : List DetailLine
  testsuitesFailures : Nat
deriving DecidableEq

/-- The coverage-only report builder, `opa_coverage_to_junit.py`
`create_coverage_report` (lines 26-201): a single suite with a single
overall test case, failed exactly when the rounded overall coverage is
below the threshold (lines 83-86, 124-130, 197), with all per-area and
per-file detail in the `system-out` body (lines 134-191). -/
def create_coverage_report (d : CoverageData) (thr : ℚ) : CoverageOnlyReport :=
  let overall := pyRound2 d.coverage
  let total_lines := d.covered_lines + d.not_covered_lines
  let meets : Bool := decide (thr ≤ overall)
  let groups := policyGroupsCovJunit d
  let details :=
    [DetailLine.reportHeader overall d.covered_lines total_lines,
     DetailLine.thresholdLine thr, DetailLine.separator] ++
    concatMap (fun pr =>
        let g : CovGroup := pr.2
        let avg := avgPercentage g
        (if 0 < g.total_lines then
           DetailLine.areaHeader pr.1 avg (some (g.covered_lines, g.total_lines))
         else DetailLine.areaHeader pr.1 avg none) ::
        concatMap (fileDetailJunit d thr) (sortBy strLe g.files))
      (sortBy (fun a b => strLe a.1 b.1) groups)
  { overall_coverage := overall
    total_lines := total_lines
    suiteFailures := if meets then 0 else 1
    testcaseFailed := !meets
    details := details
    testsuitesFailures := if meets then 0 else 1 }

/-- One rendered test case of the combined report's Coverage Summary suite:
name data, failure marking, and `system-out` body. -/
structure CovCase where
  area : String
  nameAvg : ℚ
  nameLines : Option (Nat × Nat)
  failed : Bool
  details : List DetailLine
deriving DecidableEq

/-- Render one policy-area group as a Coverage Summary test case:
`opa_combined_junit.py` lines 255-346. The failure marking
(`has_incomplete_coverage`, lines 264-266) is `any` file of the area with
raw coverage strictly below 100. -/
def covSummaryCase (d : CoverageData) (pr : String × CovGroup) : CovCase :=
  let g := pr.2
  let avg := avgPercentage g
  let nameLines : Option (Nat × Nat) :=
    if 0 < g.total_lines then some (g.covered_lines, g.total_lines)
    else
      match g.files with
      | first_file :: _ =>
        let fd := lookupFileData d.files first_file
        match fd.covered_lines, fd.not_covered_lines with
        | some c, some nc => some (c, c + nc)
        | _, _ => none
      | [] => none
  let has_incomplete := g.files.any (fun f => decide ((lookupFileData d.files f).coverage < 100))
  { area := pr.1
    nameAvg := avg
    nameLines := nameLines
    failed := has_incomplete
    details := concatMap (fileDetailCombined d) (sortBy strLe g.files) }

/-- The combined report's Coverage Summary test cases, in sorted area
order: `opa_combined_junit.py` lines 255-346 (`for policy_area in
sorted(policy_groups.keys())`). -/
def create_coverage_summary_cases (d : CoverageData) : List CovCase :=
  (sortBy (fun a b => strLe a.1 b.1) (policyGroupsCovCombined d)).map (covSummaryCase d)

/-- The overall policy-only metrics record returned by
`calculate_policy_only_coverage` (`opa_coverage_to_cobertura.py`
lines 25-53). -/
structure PolicyMetrics where
  covered_lines : Nat
  not_covered_lines : Nat
  total_lines : Nat
  coverage : ℚ
deriving DecidableEq

/-- `opa_coverage_to_cobertura.py` `calculate_policy_only_coverage`
(lines 25-53): sum covered / not-covered lines over all files whose path
does not end in `_test.rego` (missing line-count keys default to 0), and
derive the overall percentage `covered / total * 100` (0 when no lines). -/
def calculate_policy_only_coverage (d : CoverageData) : PolicyMetrics :=
  let acc := d.files.foldl
    (fun (acc : Nat × Nat) pr =>
      if endsWithStr "_test.rego" pr.1 then acc
      else (acc.1 + pr.2.covered_lines.getD 0, acc.2 + pr.2.not_covered_lines.getD 0))
    (0, 0)
  let total := acc.1 + acc.2
  { covered_lines := acc.1
    not_covered_lines := acc.2
    total_lines := total
    coverage := if 0 < total then mkRat (acc.1 * 100) total else 0 }

/-- The per-package accumulator of the Cobertura report
(`opa_coverage_to_cobertura.py` lines 100-106); `line_rate` is initialised
to 0 and never updated inside the map. -/
structure PkgGroup where
  files : List (String × CoverageFileData)
  line_rate : ℚ
  covered_lines : Nat
  total_lines : Nat
deriving DecidableEq

/-- The Cobertura package name of a file path: the dot-joined directory
part, or `default` for a bare filename (`opa_coverage_to_cobertura.py`
lines 93-98). -/
def packageName (path : String) : String :=
  let parts := splitChar '/' path
  if 1 < parts.length then joinSep "." parts.dropLast else "default"

/-- Find-or-create update of the Cobertura package map: append the
`(path, file_data)` pair and accumulate line counts
(`opa_coverage_to_cobertura.py` lines 100-116). -/
def pkgUpdateAssoc (m : List (String × PkgGroup)) (k path : String)
    (fd : CoverageFileData) : List (String × PkgGroup) :=
  let addFile := fun (g : PkgGroup) =>
    let covered := fd.covered_lines.getD 0
    let nc := fd.not_covered_lines.getD 0
    { g with files := g.files ++ [(path, fd)]
             covered_lines := g.covered_lines + covered
             total_lines := g.total_lines + (covered + nc) }
  match m with
  | [] => [(k, addFile { files := [], line_rate := 0, covered_lines := 0, total_lines := 0 })]
  | (k0, g) :: rest =>
    if k0 = k then (k0, addFile g) :: rest
    else (k0, g) :: pkgUpdateAssoc rest k path fd

/-- The Cobertura package map: group non-test files by directory-based
package name (`opa_coverage_to_cobertura.py` lines 86-116, iterating
`coverage_data["files"].items()` and skipping `_test.rego` files). -/
def package_map (d : CoverageData) : List (String × PkgGroup) :=
  d.files.foldl
    (fun m pr =>
      if endsWithStr "_test.rego" pr.1 then m
      else pkgUpdateAssoc m (packageName pr.1) pr.1 pr.2)
    []

/-- Whether line `n` lies in the inclusive region `r` (Python
`range(start, end + 1)` membership). -/
def inRegion (n : Nat) (r : LineRange) : Bool :=
  decide (r.startRow ≤ n) && decide (n ≤ r.endRow)

/-- Assign value `b` to every line of region `r` in the line-coverage map
(the dict writes of `opa_coverage_to_cobertura.py` lines 166-177). -/
def setRegion (b : Bool) (m : Nat → Option Bool) (r : LineRange) : Nat → Option Bool :=
  fun n => if inRegion n r then some b else m n

/-- The final `line_coverage` dict of a file: covered regions are applied
first (value `True`), then not-covered regions (value `False`), so a later
write overwrites an earlier one (`opa_coverage_to_cobertura.py`
lines 162-177). -/
def line_coverage (fd : CoverageFileData) : Nat → Option Bool :=
  fd.not_covered.foldl (setRegion false)
    (fd.covered.foldl (setRegion true) (fun _ => none))

/-- Count upward from `s`, `len` entries: Python `range(s, s + len)`. -/
def rangeFrom (s : Nat) : Nat → List Nat
  | 0 => []
  | len + 1 => s :: rangeFrom (s + 1) len

/-- All line numbers of a region: Python
`range(region["start"]["row"], region["end"]["row"] + 1)`. -/
def regionLines (r : LineRange) : List Nat :=
  rangeFrom r.startRow (r.endRow + 1 - r.startRow)

/-- The keys of the `line_coverage` dict: every line number mentioned in a
covered or not-covered region, each once, in ascending order
(`sorted(line_coverage.keys())`, line 180). -/
def coverage_keys (fd : CoverageFileData) : List Nat :=
  sortBy (fun a b => decide (a ≤ b))
    ((concatMap regionLines fd.covered ++ concatMap regionLines fd.not_covered).dedup)

/-- The emitted `<line>` elements of one file's Cobertura class: one
`(number, hits)` pair per key of the line-coverage dict, `hits = "1"` for a
line whose final value is covered and `"0"` otherwise
(`opa_coverage_to_cobertura.py` lines 179-184; every emitted key has been
assigned, so the `getD` default is never consulted). -/
def emit_lines (fd : CoverageFileData) : List (Nat × String) :=
  (coverage_keys fd).map (fun n => (n, if (line_coverage fd n).getD false then "1" else "0"))

/-- Exit code of `opa_test_to_junit.py` for a run that completes report
generation: unconditionally `sys.exit(0)` (line 212), whatever the test
outcomes were. -/
def opa_test_to_junit_exit (data : List TestRecord) : Nat :=
  let _ := data
  0

/-- Exit code of `opa_coverage_to_junit.py` for a completed run: 0 iff the
rounded overall coverage meets the threshold (line 275). -/
def opa_coverage_to_junit_exit (d : CoverageData) (thr : ℚ) : Nat :=
  if thr ≤ pyRound2 d.coverage then 0 else 1

/-- Exit code of `opa_combined_junit.py` for a completed run
(`create_combined_report` lines 383-401, 446): `total_failures` counts the
records with the fail flag, plus one when the rounded overall coverage is
below the threshold; the exit code is 1 when `total_failures > 0` or the
coverage is below the threshold. Error-flagged records are counted in
`total_errors`, which does not influence the exit code. -/
def opa_combined_exit (data : List TestRecord) (d : CoverageData) (thr : ℚ) : Nat :=
  let total_failures0 := (data.filter (fun t => t.fail)).length
  let overall := pyRound2 d.coverage
  let total_failures := if overall < thr then total_failures0 + 1 else total_failures0
  if 0 < total_failures ∨ overall < thr then 1 else 0

/-- Exit code of `opa_coverage_to_cobertura.py` for a completed run:
unconditionally `sys.exit(0)` (line 292), even when a threshold was given
and the summary printed `FAIL (below threshold)` (lines 262-267). -/
def opa_cobertura_exit (d : CoverageData) (thr : Option ℚ) : Nat :=
  let _ := d
  let _ := thr
  0

/-- A concrete one-file coverage input used by several witnesses. -/
def exCovData : CoverageData :=
  { coverage := 50, covered_lines := 5, not_covered_lines := 5,
    files := [("policy/a/b.rego", ⟨50, some 5, some 5, [], []⟩)] }

/-- The policy-area group that `exCovData` produces. -/
def exCovPair : String × CovGroup :=
  ("a", { files := ["policy/a/b.rego"], total_coverage := 50, file_count := 1,
          total_lines := 10, covered_lines := 5, not_covered_lines := 5 })

/-- A concrete coverage file with four uncovered regions, used by the C9
witness. -/
def exCovFileRegions : CoverageFileData :=
  ⟨40, some 4, some 6, [], [⟨1, 1⟩, ⟨3, 4⟩, ⟨6, 6⟩, ⟨8, 9⟩]⟩

/-- A concrete coverage input holding `exCovFileRegions`. -/
def exCovDataRegions : CoverageData :=
  { coverage := 40, covered_lines := 4, not_covered_lines := 6,
    files := [("policy/a/b.rego", exCovFileRegions)] }

theorem qAdd_eq (a b : ℚ) : qAdd a b = a + b := by
  have ha : ((a.den : ℚ)) ≠ 0 := by exact_mod_cast a.den_nz
  have hb : ((b.den : ℚ)) ≠ 0 := by exact_mod_cast b.den_nz
  rw [qAdd, Rat.mkRat_eq_div]
  push_cast
  conv_rhs => rw [← Rat.num_div_den a, ← Rat.num_div_den b]
  rw [div_add_div _ _ ha hb]
  ring_nf

theorem qDivNat_eq (a : ℚ) (n : Nat) : qDivNat a n = a / (n : ℚ) := by
  rw [qDivNat, Rat.mkRat_eq_div]
  push_cast
  rw [← div_div, Rat.num_div_den]

theorem mem_insertBy (le : α → α → Bool) (x y : α) (l : List α) :
    y ∈ insertBy le x l ↔ y = x ∨ y ∈ l := by
  induction l with
  | nil => simp [insertBy]
  | cons z zs ih =>
    by_cases h : le x z = true
    · simp [insertBy, h]
    · simp only [insertBy, h, if_neg, Bool.not_eq_true, List.mem_cons, ih]
      tauto

theorem mem_sortBy (le : α → α → Bool) (x : α) (l : List α) :
    x ∈ sortBy le l ↔ x ∈ l := by
  induction l with
  | nil => simp [sortBy]
  | cons z zs ih => simp [sortBy, mem_insertBy, ih]

theorem mem_concatMap (f : α → List β) (y : β) (l : List α) :
    y ∈ concatMap f l ↔ ∃ x ∈ l, y ∈ f x := by
  induction l with
  | nil => simp [concatMap]
  | cons z zs ih => simp [concatMap, ih]

theorem mem_rangeFrom (s len m : Nat) :
    m ∈ rangeFrom s len ↔ s ≤ m ∧ m < s + len := by
  induction len generalizing s with
  | zero => simp [rangeFrom]
  | succ n ih =>
    simp only [rangeFrom, List.mem_cons, ih]
    omega

theorem filter_length_eq_sum (p : α → Bool) (l : List α) :
    (l.filter p).length = (l.map (fun t => if p t then 1 else 0)).sum := by
  induction l with
  | nil => simp
  | cons x xs ih =>
    by_cases h : p x = true
    · simp [List.filter_cons, h, ih]
      omega
    · simp [List.filter_cons, h, ih]

theorem sumBy_testUpdateAssoc (f : TestGroup → Nat) (g0 : TestRecord → Nat)
    (h0 : f emptyTestGroup = 0)
    (hf : ∀ k g t, f (addTest k g t) = f g + g0 t)
    (m : List (String × TestGroup)) (k : String) (t : TestRecord) :
    ((testUpdateAssoc m k t).map (fun pr => f pr.2)).sum
      = (m.map (fun pr => f pr.2)).sum + g0 t := by
  induction m with
  | nil => simp [testUpdateAssoc, hf, h0]
  | cons hd rest ih =>
    obtain ⟨k0, g⟩ := hd
    by_cases hk : k0 = k
    · simp only [testUpdateAssoc, hk, if_pos, List.map_cons, List.sum_cons, hf]
      omega
    · simp only [testUpdateAssoc, hk, if_neg, not_false_iff, List.map_cons, List.sum_cons, ih]
      omega

theorem sumBy_policyGroupsOfTests (f : TestGroup → Nat) (g0 : TestRecord → Nat)
    (h0 : f emptyTestGroup = 0)
    (hf : ∀ k g t, f (addTest k g t) = f g + g0 t)
    (data : List TestRecord) :
    ∀ m : List (String × TestGroup),
      ((data.foldl (fun m t => testUpdateAssoc m (policyName t.package) t) m).map
          (fun pr => f pr.2)).sum
        = (m.map (fun pr => f pr.2)).sum + (data.map g0).sum := by
  induction data with
  | nil => simp
  | cons t ts ih =>
    intro m
    simp only [List.foldl_cons, List.map_cons, List.sum_cons]
    rw [ih, sumBy_testUpdateAssoc f g0 h0 hf]
    omega

/-- C2: for every non-empty list of test records, the per-group counts of
the policy grouping shared by `opa_test_to_junit.py` (lines 40-68) and
`opa_combined_junit.py` (lines 45-75) partition the flat list: the groups'
test counts sum to the number of records, and the groups' failure, error
and skipped counters sum to the number of records with the respective flag
set — no record is dropped or double-counted. -/
theorem group_totals_partition (data : List TestRecord) (hne : data ≠ []) :
    ((policyGroupsOfTests data).map (fun pr => pr.2.tests.length)).sum = data.length ∧
    ((policyGroupsOfTests data).map (fun pr => pr.2.failures)).sum
      = (data.filter (fun t => t.fail)).length ∧
    ((policyGroupsOfTests data).map (fun pr => pr.2.errors)).sum
      = (data.filter (fun t => t.error)).length ∧
    ((policyGroupsOfTests data).map (fun pr => pr.2.skipped)).sum
      = (data.filter (fun t => t.skip)).length := by
  have hlen := sumBy_policyGroupsOfTests (fun g => g.tests.length) (fun _ => 1)
    (by simp [emptyTestGroup]) (by intro k g t; simp [addTest]) data []
  have hfail := sumBy_policyGroupsOfTests (fun g => g.failures)
    (fun t => if t.fail then 1 else 0)
    (by simp [emptyTestGroup]) (by intro k g t; simp [addTest]) data []
  have herr := sumBy_policyGroupsOfTests (fun g => g.errors)
    (fun t => if t.error then 1 else 0)
    (by simp [emptyTestGroup]) (by intro k g t; simp [addTest]) data []
  have hskip := sumBy_policyGroupsOfTests (fun g => g.skipped)
    (fun t => if t.skip then 1 else 0)
    (by simp [emptyTestGroup]) (by intro k g t; simp [addTest]) data []
  refine ⟨?_, ?_, ?_, ?_⟩
  · rw [policyGroupsOfTests, hlen]
    simp [List.map_const]
  · rw [policyGroupsOfTests, hfail, filter_length_eq_sum]
    simp
  · rw [policyGroupsOfTests, herr, filter_length_eq_sum]
    simp
  · rw [policyGroupsOfTests, hskip, filter_length_eq_sum]
    simp

/-- Witness for C2 on the two-record example of spec §8. -/
theorem group_totals_partition_witness :
    ([⟨"data.policy.foo_test", "t1", 1000000, false, false, false, "fooA.rego", 1⟩,
      ⟨"data.policy.foo_test", "t2", 2000000, true, false, false, "fooA.rego", 5⟩]
        : List TestRecord) ≠ [] ∧
    (((policyGroupsOfTests
        [⟨"data.policy.foo_test", "t1", 1000000, false, false, false, "fooA.rego", 1⟩,
         ⟨"data.policy.foo_test", "t2", 2000000, true, false, false, "fooA.rego", 5⟩]).map
        (fun pr => pr.2.failures)).sum = 1) :=
  ⟨by decide,
   (group_totals_partition
      [⟨"data.policy.foo_test", "t1", 1000000, false, false, false, "fooA.rego", 1⟩,
       ⟨"data.policy.foo_test", "t2", 2000000, true, false, false, "fooA.rego", 5⟩]
      (by decide)).2.1.trans (by decide)⟩

theorem covUpdateAssoc_invariant
    (add : CovGroup → String → CoverageFileData → CovGroup)
    (hadd : ∀ g path fd, (add g path fd).files = g.files ++ [path] ∧
        (add g path fd).file_count = g.file_count + 1 ∧
        (add g path fd).total_coverage = qAdd g.total_coverage fd.coverage)
    (lk : String → CoverageFileData)
    (m : List (String × CovGroup)) (k path : String)
    (hm : ∀ pr ∈ m, pr.2.file_count = pr.2.files.length ∧ 0 < pr.2.file_count ∧
        pr.2.total_coverage = ((pr.2.files.map (fun f => (lk f).coverage)).sum)) :
    ∀ pr ∈ covUpdateAssoc add m k path (lk path),
      pr.2.file_count = pr.2.files.length ∧ 0 < pr.2.file_count ∧
        pr.2.total_coverage = ((pr.2.files.map (fun f => (lk f).coverage)).sum) := by
  induction m with
  | nil =>
    intro pr hpr
    simp only [covUpdateAssoc, List.mem_singleton] at hpr
    subst hpr
    obtain ⟨hf, hc, ht⟩ := hadd emptyCovGroup path (lk path)
    refine ⟨?_, ?_, ?_⟩
    · rw [hc, hf]
      simp [emptyCovGroup]
    · rw [hc]
      simp
    · rw [ht, qAdd_eq, hf]
      simp [emptyCovGroup]
  | cons hd rest ih =>
    obtain ⟨k0, g⟩ := hd
    intro pr hpr
    by_cases hk : k0 = k
    · simp only [covUpdateAssoc, hk, if_pos, List.mem_cons] at hpr
      rcases hpr with hpr | hpr
      · subst hpr
        obtain ⟨hf, hc, ht⟩ := hadd g path (lk path)
        obtain ⟨ih1, ih2, ih3⟩ := hm (k0, g) (by simp)
        simp only at ih1 ih2 ih3
        refine ⟨?_, ?_, ?_⟩
        · rw [hc, hf]
          simp [ih1]
        · rw [hc]
          simp
        · rw [ht, qAdd_eq, ih3, hf]
          simp
      · exact hm pr (List.mem_cons_of_mem _ hpr)
    · simp only [covUpdateAssoc, hk, if_neg, not_false_iff, List.mem_cons] at hpr
      rcases hpr with hpr | hpr
      · subst hpr
        exact hm (k0, g) (by simp)
      · exact ih (fun q hq => hm q (List.mem_cons_of_mem _ hq)) pr hpr

theorem covFold_invariant
    (add : CovGroup → String → CoverageFileData → CovGroup)
    (hadd : ∀ g path fd, (add g path fd).files = g.files ++ [path] ∧
        (add g path fd).file_count = g.file_count + 1 ∧
        (add g path fd).total_coverage = qAdd g.total_coverage fd.coverage)
    (lk : String → CoverageFileData) (keyOf : String → String)
    (paths : List String) :
    ∀ m : List (String × CovGroup),
      (∀ pr ∈ m, pr.2.file_count = pr.2.files.length ∧ 0 < pr.2.file_count ∧
          pr.2.total_coverage = ((pr.2.files.map (fun f => (lk f).coverage)).sum)) →
      ∀ pr ∈ paths.foldl (fun m path => covUpdateAssoc add m (keyOf path) path (lk path)) m,
        pr.2.file_count = pr.2.files.length ∧ 0 < pr.2.file_count ∧
          pr.2.total_coverage = ((pr.2.files.map (fun f => (lk f).coverage)).sum) := by
  induction paths with
  | nil => intro m hm; simpa using hm
  | cons p ps ih =>
    intro m hm
    simp only [List.foldl_cons]
    exact ih _ (covUpdateAssoc_invariant add hadd lk m (keyOf p) p hm)

theorem covAddJunit_spec (g : CovGroup) (path : String) (fd : CoverageFileData) :
    (covAddJunit g path fd).files = g.files ++ [path] ∧
    (covAddJunit g path fd).file_count = g.file_count + 1 ∧
    (covAddJunit g path fd).total_coverage = qAdd g.total_coverage fd.coverage := by
  cases h : fd.covered_lines with
  | none => simp [covAddJunit, h]
  | some c => simp [covAddJunit, h]

theorem covAddCombined_spec (g : CovGroup) (path : String) (fd : CoverageFileData) :
    (covAddCombined g path fd).files = g.files ++ [path] ∧
    (covAddCombined g path fd).file_count = g.file_count + 1 ∧
    (covAddCombined g path fd).total_coverage = qAdd g.total_coverage fd.coverage := by
  cases h : fd.covered_lines with
  | none => cases h2 : fd.not_covered_lines with
    | none => simp [covAddCombined, h, h2]
    | some nc => simp [covAddCombined, h, h2]
  | some c => cases h2 : fd.not_covered_lines with
    | none => simp [covAddCombined, h, h2]
    | some nc => simp [covAddCombined, h, h2]

theorem policyGroupsCovJunit_invariant (d : CoverageData) :
    ∀ pr ∈ policyGroupsCovJunit d,
      pr.2.file_count = pr.2.files.length ∧ 0 < pr.2.file_count ∧
        pr.2.total_coverage
          = ((pr.2.files.map (fun f => (lookupFileData d.files f).coverage)).sum) := by
  exact covFold_invariant covAddJunit covAddJunit_spec (lookupFileData d.files) policyArea
    (policyFilePaths d) [] (by simp)

theorem policyGroupsCovCombined_invariant (d : CoverageData) :
    ∀ pr ∈ policyGroupsCovCombined d,
      pr.2.file_count = pr.2.files.length ∧ 0 < pr.2.file_count ∧
        pr.2.total_coverage
          = ((pr.2.files.map (fun f => (lookupFileData d.files f).coverage)).sum) := by
  exact covFold_invariant covAddCombined covAddCombined_spec (lookupFileData d.files) policyArea
    (policyFilePaths d) [] (by simp)

/-- C10: every policy-area group that exists at rendering time was created
by adding at least one file, so its `file_count` is at least 1 (and equals
the length of its file list), and the average computation
`total_coverage / file_count` of `opa_coverage_to_junit.py` line 146 /
`opa_combined_junit.py` line 257 never divides by zero. -/
theorem groups_have_positive_file_count (d : CoverageData) :
    (∀ pr ∈ policyGroupsCovJunit d,
        0 < pr.2.file_count ∧ pr.2.file_count = pr.2.files.length) ∧
    (∀ pr ∈ policyGroupsCovCombined d,
        0 < pr.2.file_count ∧ pr.2.file_count = pr.2.files.length) := by
  constructor
  · intro pr hpr
    obtain ⟨h1, h2, _⟩ := policyGroupsCovJunit_invariant d pr hpr
    exact ⟨h2, h1⟩
  · intro pr hpr
    obtain ⟨h1, h2, _⟩ := policyGroupsCovCombined_invariant d pr hpr
    exact ⟨h2, h1⟩

/-- Witness for C10 on a one-file input. -/
theorem groups_have_positive_file_count_witness :
    0 < exCovPair.2.file_count ∧ exCovPair.2.file_count = exCovPair.2.files.length :=
  (groups_have_positive_file_count exCovData).1 exCovPair (by decide)

/-- C8 (amended): the displayed average of a rendered policy group equals
the sum of its files' coverage percentages divided by the file count,
rounded to two decimals with Python `round`, which rounds half to even
(banker's rounding), not half-up. -/
theorem average_is_half_even_rounded_mean (d : CoverageData) (pr : String × CovGroup)
    (hpr : pr ∈ policyGroupsCovJunit d ∨ pr ∈ policyGroupsCovCombined d) :
    avgPercentage pr.2
      = pyRound2 (((pr.2.files.map (fun f => (lookupFileData d.files f).coverage)).sum)
          / (pr.2.files.length : ℚ)) := by
  have hinv : pr.2.file_count = pr.2.files.length ∧ 0 < pr.2.file_count ∧
      pr.2.total_coverage
        = ((pr.2.files.map (fun f => (lookupFileData d.files f).coverage)).sum) := by
    rcases hpr with h | h
    · exact policyGroupsCovJunit_invariant d pr h
    · exact policyGroupsCovCombined_invariant d pr h
  obtain ⟨h1, _, h3⟩ := hinv
  rw [avgPercentage, qDivNat_eq, h1, h3]

/-- Witness for C8's amended theorem on a one-file input. -/
theorem average_is_half_even_rounded_mean_witness :
    avgPercentage exCovPair.2
      = pyRound2 (((exCovPair.2.files.map
            (fun f => (lookupFileData exCovData.files f).coverage)).sum)
          / (exCovPair.2.files.length : ℚ)) :=
  average_is_half_even_rounded_mean exCovData exCovPair (Or.inl (by decide))

/-- Counterexample for C8 as stated: a single-file group with file coverage
0.125 (exactly representable in binary, so Python sees exactly this value)
is displayed as 0.12 — Python `round` rounds the tie to the even hundredth —
while the claimed half-up rounding would give 0.13. -/
theorem average_rounding_counterexample :
    ((policyGroupsCovJunit
        { coverage := mkRat 1 8, covered_lines := 0, not_covered_lines := 8,
          files := [("policy/a/b.rego", ⟨mkRat 1 8, some 0, some 8, [], []⟩)] }).map
        (fun pr => avgPercentage pr.2)) = [mkRat 12 100] ∧
    roundHalfUp2Spec (mkRat 1 8) = mkRat 13 100 ∧
    (mkRat 12 100 : ℚ) ≠ mkRat 13 100 := by
  refine ⟨by decide, by decide, by decide⟩

/-- Counterexample for C3 as stated: `data.data.foo` normalizes to
`data.foo`, a name in the normalizer's image, but normalizing it again
strips the remaining `data` segment and gives `foo` — so normalization is
not idempotent on its own image. -/
theorem normalization_not_idempotent_counterexample :
    policyName "data.data.foo" = "data.foo" ∧ policyName "data.foo" = "foo" ∧
    policyName (policyName "data.data.foo") ≠ policyName "data.data.foo" := by
  refine ⟨by decide, by decide, by decide⟩

/-- C3 (amended): one application of the normalizer strips exactly one
leading `data` segment when the identifier has more than one segment, and
exactly one trailing `_test` marker when the final segment carries one —
even when the remainder still starts with `data` or still ends in `_test`;
consequently normalization is not idempotent on names whose normal form
retains such a segment or marker. -/
theorem normalization_strips_exactly_one (q : String) (rest xs : List String)
    (last : String) (hlast : endsWithStr "_test" last = true) :
    stripDataSeg ("data" :: q :: rest) = q :: rest ∧
    stripTestSeg (xs ++ [ last]) = xs ++ [dropRightStr last 5] := by
  constructor
  · simp [stripDataSeg]
  · induction xs with
    | nil => simp [stripTestSeg, hlast]
    | cons x ys ih =>
      cases ys with
      | nil => simp [stripTestSeg, hlast]
      | cons z zs => simpa [stripTestSeg] using ih

/-- Witness for C3's amended theorem. -/
theorem normalization_strips_exactly_one_witness :
    endsWithStr "_test" "bar_test" = true ∧
    (stripDataSeg ("data" :: "data" :: ["foo"]) = "data" :: ["foo"] ∧
     stripTestSeg (["policy"] ++ ["bar_test"]) = ["policy"] ++ [dropRightStr "bar_test" 5]) :=
  ⟨by decide, normalization_strips_exactly_one "data" ["foo"] ["policy"] "bar_test" (by decide)⟩

/-- Counterexample for C1 as stated: `opa_test_to_junit.py` exits 0 on a
completed run whose only test failed (its `main` ends in unconditional
`sys.exit(0)`), and `opa_coverage_to_cobertura.py` exits 0 on a completed
run whose coverage (10%) is far below the supplied threshold (95). -/
theorem exit_status_counterexample :
    opa_test_to_junit_exit
        [⟨"data.policy.foo_test", "t", 1000, true, false, false, "foo.rego", 1⟩] = 0 ∧
    0 < (([⟨"data.policy.foo_test", "t", 1000, true, false, false, "foo.rego", 1⟩]
        : List TestRecord).filter (fun t => t.fail)).length ∧
    opa_cobertura_exit
        { coverage := 10, covered_lines := 1, not_covered_lines := 9, files := [] }
        (some 95) = 0 ∧
    pyRound2 (10 : ℚ) < 95 := by
  refine ⟨by decide, by decide, by decide, by decide⟩

/-- C1 (amended): the coverage-only report exits 0 exactly when the rounded
overall coverage meets the threshold, and the combined report exits 0
exactly when no record has the fail flag and the rounded overall coverage
meets the threshold; the test-report and Cobertura-style programs exit 0 on
every run that completes report generation, regardless of test outcomes or
coverage. -/
theorem exit_status_amended (data : List TestRecord) (d : CoverageData) (thr : ℚ)
    (othr : Option ℚ) :
    (opa_coverage_to_junit_exit d thr = 0 ↔ thr ≤ pyRound2 d.coverage) ∧
    (opa_combined_exit data d thr = 0 ↔
      (data.filter (fun t => t.fail)).length = 0 ∧ thr ≤ pyRound2 d.coverage) ∧
    opa_test_to_junit_exit data = 0 ∧
    opa_cobertura_exit d othr = 0 := by
  refine ⟨?_, ?_, rfl, rfl⟩
  · rw [opa_coverage_to_junit_exit]
    by_cases h : thr ≤ pyRound2 d.coverage
    · simp [h]
    · simp [h]
  · simp only [opa_combined_exit]
    by_cases h : pyRound2 d.coverage < thr
    · rw [if_pos h]
      have hcond : (0 < (data.filter (fun t => t.fail)).length + 1 ∨ pyRound2 d.coverage < thr) :=
        Or.inr h
      rw [if_pos hcond]
      constructor
      · intro hc
        exact absurd hc one_ne_zero
      · rintro ⟨h1, h2⟩
        exact absurd h (not_lt.mpr h2)
    · rw [if_neg h]
      by_cases hl : (data.filter (fun t => t.fail)).length = 0
      · have hcond : ¬ (0 < (data.filter (fun t => t.fail)).length ∨ pyRound2 d.coverage < thr) := by
          rw [hl]
          simp [h]
        rw [if_neg hcond]
        simp [hl, not_lt.mp h]
      · have hcond : (0 < (data.filter (fun t => t.fail)).length ∨ pyRound2 d.coverage < thr) :=
          Or.inl (by omega)
        rw [if_pos hcond]
        constructor
        · intro hc
          exact absurd hc one_ne_zero
        · rintro ⟨h1, h2⟩
          exact absurd h1 hl

/-- C4: the coverage-only report's single overall test case, and the
suite/testsuites failure counts, are marked failed exactly when the
(rounded) overall coverage is strictly below the threshold; the per-file
entries of the input have no influence on the failure marking. -/
theorem coverage_only_failure_iff_threshold (d : CoverageData) (thr : ℚ)
    (files2 : List (String × CoverageFileData)) :
    ((create_coverage_report d thr).testcaseFailed = true ↔ pyRound2 d.coverage < thr) ∧
    (create_coverage_report d thr).suiteFailures
      = (if pyRound2 d.coverage < thr then 1 else 0) ∧
    (create_coverage_report d thr).testsuitesFailures
      = (create_coverage_report d thr).suiteFailures ∧
    (create_coverage_report { d with files := files2 } thr).testcaseFailed
      = (create_coverage_report d thr).testcaseFailed := by
  refine ⟨?_, ?_, rfl, rfl⟩
  · rw [create_coverage_report]
    by_cases h : thr ≤ pyRound2 d.coverage
    · simp [h, not_lt.mpr h]
    · simp [h, lt_of_not_le h]
  · rw [create_coverage_report]
    by_cases h : thr ≤ pyRound2 d.coverage
    · simp [h, not_lt.mpr h]
    · simp [h, lt_of_not_le h]

/-- C5: every policy-area group of the combined report is rendered as a
Coverage Summary test case, and that case carries a failure annotation
exactly when at least one file grouped into the area (test-support files
were already excluded from the grouping) has raw coverage strictly below
100 — independent of the area's average and of the configured threshold,
neither of which occurs in the right-hand side. -/
theorem combined_area_failure_iff_file_below_100 (d : CoverageData)
    (pr : String × CovGroup) (hpr : pr ∈ policyGroupsCovCombined d) :
    covSummaryCase d pr ∈ create_coverage_summary_cases d ∧
    ((covSummaryCase d pr).failed = true ↔
      ∃ f ∈ pr.2.files, (lookupFileData d.files f).coverage < 100) := by
  constructor
  · rw [create_coverage_summary_cases]
    exact List.mem_map_of_mem _ ((mem_sortBy _ _ _).mpr hpr)
  · simp only [covSummaryCase]
    rw [List.any_eq_true]
    constructor
    · rintro ⟨f, hf, hdec⟩
      exact ⟨f, hf, of_decide_eq_true hdec⟩
    · rintro ⟨f, hf, hlt⟩
      exact ⟨f, hf, decide_eq_true hlt⟩

/-- Witness for C5 on a one-file input whose only file is at 50%. -/
theorem combined_area_failure_iff_file_below_100_witness :
    covSummaryCase exCovData exCovPair ∈ create_coverage_summary_cases exCovData ∧
    ((covSummaryCase exCovData exCovPair).failed = true ↔
      ∃ f ∈ exCovPair.2.files, (lookupFileData exCovData.files f).coverage < 100) :=
  combined_area_failure_iff_file_below_100 exCovData exCovPair (by decide)

theorem foldl_setRegion_of_not_mem (b : Bool) (n : Nat) (rs : List LineRange) :
    ∀ m : Nat → Option Bool, (∀ r ∈ rs, inRegion n r = false) →
      rs.foldl (setRegion b) m n = m n := by
  induction rs with
  | nil => intro m _; rfl
  | cons r rest ih =>
    intro m hall
    simp only [List.foldl_cons]
    rw [ih _ (fun q hq => hall q (List.mem_cons_of_mem _ hq))]
    simp [setRegion, hall r (List.mem_cons_self r rest)]

theorem foldl_setRegion_of_mem (b : Bool) (n : Nat) (rs : List LineRange) :
    ∀ m : Nat → Option Bool, (∃ r ∈ rs, inRegion n r = true) →
      rs.foldl (setRegion b) m n = some b := by
  induction rs with
  | nil => intro m h; simp at h
  | cons r rest ih =>
    intro m hex
    simp only [List.foldl_cons]
    by_cases hrest : ∃ q ∈ rest, inRegion n q = true
    · exact ih _ hrest
    · push_neg at hrest
      have hall : ∀ q ∈ rest, inRegion n q = false := by
        intro q hq
        exact Bool.not_eq_true _ ▸ (Bool.eq_false_iff.mpr (hrest q hq))
      rw [foldl_setRegion_of_not_mem b n rest _ hall]
      obtain ⟨r0, hr0, hin⟩ := hex
      rcases List.mem_cons.mp hr0 with h | h
      · subst h
        simp [setRegion, hin]
      · exact absurd hin (hrest r0 h)

theorem mem_regionLines (n : Nat) (r : LineRange) (h : inRegion n r = true) :
    n ∈ regionLines r := by
  rw [regionLines, mem_rangeFrom]
  simp only [inRegion, Bool.and_eq_true, decide_eq_true_eq] at h
  omega

/-- C6: in the Cobertura-style report, a line number lying in both a
covered region and a not-covered region of a file ends up `False` in the
`line_coverage` dict — the not-covered pass runs after the covered pass and
overwrites it — and the emitted `<line>` element for that number carries
`hits="0"`. -/
theorem cobertura_overlap_not_covered_wins (fd : CoverageFileData) (n : Nat)
    (hcov : ∃ r ∈ fd.covered, inRegion n r = true)
    (hnc : ∃ r ∈ fd.not_covered, inRegion n r = true) :
    line_coverage fd n = some false ∧ (n, "0") ∈ emit_lines fd := by
  have hlc : line_coverage fd n = some false :=
    foldl_setRegion_of_mem false n fd.not_covered _ hnc
  refine ⟨hlc, ?_⟩
  have hkey : n ∈ coverage_keys fd := by
    rw [coverage_keys, mem_sortBy, List.mem_dedup, List.mem_append]
    obtain ⟨r, hr, hin⟩ := hcov
    exact Or.inl ((mem_concatMap _ _ _).mpr ⟨r, hr, mem_regionLines n r hin⟩)
  have := List.mem_map_of_mem
    (fun n => (n, if (line_coverage fd n).getD false then "1" else "0")) hkey
  simpa [emit_lines, hlc] using this

/-- Witness for C6: line 2 lies in covered region 1-3 and in not-covered
region 2-2, and is emitted with `hits="0"`. -/
theorem cobertura_overlap_not_covered_wins_witness :
    line_coverage ⟨0, some 1, some 1, [⟨1, 3⟩], [⟨2, 2⟩]⟩ 2 = some false ∧
    (2, "0") ∈ emit_lines ⟨0, some 1, some 1, [⟨1, 3⟩], [⟨2, 2⟩]⟩ :=
  cobertura_overlap_not_covered_wins ⟨0, some 1, some 1, [⟨1, 3⟩], [⟨2, 2⟩]⟩ 2
    (by decide) (by decide)

theorem foldl_ext_mem (l : List α) (f g : β → α → β)
    (h : ∀ b x, x ∈ l → f b x = g b x) : ∀ b, l.foldl f b = l.foldl g b := by
  induction l with
  | nil => intro b; rfl
  | cons x xs ih =>
    intro b
    simp only [List.foldl_cons]
    rw [h b x (List.mem_cons_self x xs)]
    exact ih (fun b y hy => h b y (List.mem_cons_of_mem _ hy)) _

theorem foldl_middle_skip (l1 l2 : List α) (x : α) (f : β → α → β)
    (hx : ∀ b, f b x = b) (b : β) :
    (l1 ++ x :: l2).foldl f b = (l1 ++ l2).foldl f b := by
  rw [List.foldl_append, List.foldl_append, List.foldl_cons, hx]

theorem find?_key_middle (l1 l2 : List (String × CoverageFileData)) (path p : String)
    (fd : CoverageFileData) (hne : p ≠ path) :
    (l1 ++ (path, fd) :: l2).find? (fun pr => decide (pr.1 = p))
      = (l1 ++ l2).find? (fun pr => decide (pr.1 = p)) := by
  induction l1 with
  | nil =>
    simp only [List.nil_append]
    rw [List.find?_cons_of_neg]
    simp [Ne.symm hne]
  | cons hd rest ih =>
    by_cases h : hd.1 = p
    · simp only [List.cons_append]
      rw [List.find?_cons_of_pos, List.find?_cons_of_pos] <;> simp [h]
    · simp only [List.cons_append]
      rw [List.find?_cons_of_neg, List.find?_cons_of_neg]
      · exact ih
      · simp [h]
      · simp [h]

theorem lookupFileData_middle (l1 l2 : List (String × CoverageFileData)) (path p : String)
    (fd : CoverageFileData) (hne : p ≠ path) :
    lookupFileData (l1 ++ (path, fd) :: l2) p = lookupFileData (l1 ++ l2) p := by
  rw [lookupFileData, lookupFileData, find?_key_middle l1 l2 path p fd hne]

theorem policyFilePaths_middle (d : CoverageData)
    (l1 l2 : List (String × CoverageFileData)) (path : String) (fd : CoverageFileData)
    (hsuf : endsWithStr "_test.rego" path = true)
    (hfiles : d.files = l1 ++ (path, fd) :: l2) :
    policyFilePaths d = policyFilePaths { d with files := l1 ++ l2 } := by
  simp only [policyFilePaths, hfiles]
  simp [List.filter_append, List.filter_cons, hsuf]

theorem groups_fold_middle
    (add : CovGroup → String → CoverageFileData → CovGroup)
    (d : CoverageData)
    (l1 l2 : List (String × CoverageFileData)) (path : String) (fd : CoverageFileData)
    (hsuf : endsWithStr "_test.rego" path = true)
    (hfiles : d.files = l1 ++ (path, fd) :: l2) :
    (policyFilePaths d).foldl
        (fun m p => covUpdateAssoc add m (policyArea p) p (lookupFileData d.files p)) []
      = (policyFilePaths { d with files := l1 ++ l2 }).foldl
        (fun m p => covUpdateAssoc add m (policyArea p) p (lookupFileData (l1 ++ l2) p)) [] := by
  rw [policyFilePaths_middle d l1 l2 path fd hsuf hfiles]
  apply foldl_ext_mem
  intro m p hp
  have hp2 : (!(endsWithStr "_test.rego" p)) = true :=
    (List.mem_filter.mp hp).2
  have hne : p ≠ path := by
    intro he
    rw [he, hsuf] at hp2
    simp at hp2
  rw [hfiles, lookupFileData_middle l1 l2 path p fd hne]

/-- C7: a file whose path ends in `_test.rego` contributes nothing to any
rollup the programs compute: removing such a file from the input leaves
unchanged the policy-only overall metrics of the Cobertura converter
(covered lines, uncovered lines, total lines, overall percentage), the
policy-area groups of the coverage-only and combined reports, and the
Cobertura package map. -/
theorem test_files_contribute_zero (d : CoverageData)
    (l1 l2 : List (String × CoverageFileData)) (path : String) (fd : CoverageFileData)
    (hsuf : endsWithStr "_test.rego" path = true)
    (hfiles : d.files = l1 ++ (path, fd) :: l2) :
    calculate_policy_only_coverage d
      = calculate_policy_only_coverage { d with files := l1 ++ l2 } ∧
    policyGroupsCovJunit d = policyGroupsCovJunit { d with files := l1 ++ l2 } ∧
    policyGroupsCovCombined d = policyGroupsCovCombined { d with files := l1 ++ l2 } ∧
    package_map d = package_map { d with files := l1 ++ l2 } := by
  refine ⟨?_, ?_, ?_, ?_⟩
  · simp only [calculate_policy_only_coverage, hfiles]
    rw [foldl_middle_skip l1 l2 (path, fd) _ (fun b => by simp [hsuf])]
  · exact groups_fold_middle covAddJunit d l1 l2 path fd hsuf hfiles
  · exact groups_fold_middle covAddCombined d l1 l2 path fd hsuf hfiles
  · simp only [package_map, hfiles]
    rw [foldl_middle_skip l1 l2 (path, fd) _ (fun b => by simp [hsuf])]

/-- Witness for C7: dropping a `_test.rego` file from a two-file input
changes none of the computed rollups. -/
theorem test_files_contribute_zero_witness :
    calculate_policy_only_coverage
        { coverage := 50, covered_lines := 6, not_covered_lines := 6,
          files := [("policy/a/b.rego", ⟨50, some 5, some 5, [], []⟩),
                    ("policy/a/b_test.rego", ⟨100, some 1, some 1, [], []⟩)] }
      = calculate_policy_only_coverage
        { coverage := 50, covered_lines := 6, not_covered_lines := 6,
          files := [("policy/a/b.rego", ⟨50, some 5, some 5, [], []⟩)] } ∧
    policyGroupsCovJunit
        { coverage := 50, covered_lines := 6, not_covered_lines := 6,
          files := [("policy/a/b.rego", ⟨50, some 5, some 5, [], []⟩),
                    ("policy/a/b_test.rego", ⟨100, some 1, some 1, [], []⟩)] }
      = policyGroupsCovJunit
        { coverage := 50, covered_lines := 6, not_covered_lines := 6,
          files := [("policy/a/b.rego", ⟨50, some 5, some 5, [], []⟩)] } ∧
    policyGroupsCovCombined
        { coverage := 50, covered_lines := 6, not_covered_lines := 6,
          files := [("policy/a/b.rego", ⟨50, some 5, some 5, [], []⟩),
                    ("policy/a/b_test.rego", ⟨100, some 1, some 1, [], []⟩)] }
      = policyGroupsCovCombined
        { coverage := 50, covered_lines := 6, not_covered_lines := 6,
          files := [("policy/a/b.rego", ⟨50, some 5, some 5, [], []⟩)] } ∧
    package_map
        { coverage := 50, covered_lines := 6, not_covered_lines := 6,
          files := [("policy/a/b.rego", ⟨50, some 5, some 5, [], []⟩),
                    ("policy/a/b_test.rego", ⟨100, some 1, some 1, [], []⟩)] }
      = package_map
        { coverage := 50, covered_lines := 6, not_covered_lines := 6,
          files := [("policy/a/b.rego", ⟨50, some 5, some 5, [], []⟩)] } :=
  test_files_contribute_zero
    { coverage := 50, covered_lines := 6, not_covered_lines := 6,
      files := [("policy/a/b.rego", ⟨50, some 5, some 5, [], []⟩),
                ("policy/a/b_test.rego", ⟨100, some 1, some 1, [], []⟩)] }
    [("policy/a/b.rego", ⟨50, some 5, some 5, [], []⟩)] []
    "policy/a/b_test.rego" ⟨100, some 1, some 1, [], []⟩
    (by decide) (by decide)

/-- C9: for a file with line-count data, rounded coverage below 100 and a
non-empty uncovered-region list, the combined report lists at most the
first 3 uncovered regions, each as `Lines a-b` even when single-line, plus
one `... and N more regions` summary line when more than 3 exist; the
coverage-only report (when the file is below the threshold) enumerates
every region and renders a single-line region as `Line N`. -/
theorem region_detail_formats (d : CoverageData) (thr : ℚ) (path : String)
    (fd : CoverageFileData) (c nc : Nat)
    (hfd : lookupFileData d.files path = fd)
    (hc : fd.covered_lines = some c)
    (hnc : fd.not_covered_lines = some nc)
    (hlow : pyRound2 fd.coverage < 100)
    (hne : fd.not_covered ≠ []) :
    fileDetailCombined d path
      = DetailLine.fileLine false (lastSegment path) (pyRound2 fd.coverage)
          (some (c, c + nc)) ::
        DetailLine.uncoveredHeader ::
        ((fd.not_covered.take 3).map (fun r => DetailLine.regionRange r.startRow r.endRow) ++
         (if 3 < fd.not_covered.length then
            [DetailLine.moreRegions (fd.not_covered.length - 3)]
          else [])) ∧
    (pyRound2 fd.coverage < thr →
      fileDetailJunit d thr path
        = DetailLine.fileLine false (lastSegment path) (pyRound2 fd.coverage)
            (some (c, c + nc)) ::
          DetailLine.uncoveredHeader ::
          fd.not_covered.map (fun r =>
            if r.startRow = r.endRow then DetailLine.regionSingle r.startRow
            else DetailLine.regionRange r.startRow r.endRow)) := by
  have hok : (decide (pyRound2 fd.coverage = (100 : ℚ))) = false :=
    decide_eq_false (ne_of_lt hlow)
  constructor
  · simp only [fileDetailCombined, hfd, hc, hnc, hok]
    rw [if_pos ⟨hlow, hne⟩]
  · intro hthr
    simp only [fileDetailJunit, hfd, hc, hnc, hok, Option.getD_some]
    rw [if_pos ⟨hthr, hne⟩]

/-- Witness for C9 on a file with four uncovered regions. -/
theorem region_detail_formats_witness :
    fileDetailCombined exCovDataRegions "policy/a/b.rego"
      = DetailLine.fileLine false (lastSegment "policy/a/b.rego")
          (pyRound2 exCovFileRegions.coverage) (some (4, 4 + 6)) ::
        DetailLine.uncoveredHeader ::
        ((exCovFileRegions.not_covered.take 3).map
            (fun r => DetailLine.regionRange r.startRow r.endRow) ++
         (if 3 < exCovFileRegions.not_covered.length then
            [DetailLine.moreRegions (exCovFileRegions.not_covered.length - 3)]
          else [])) ∧
    (pyRound2 exCovFileRegions.coverage < 95 →
      fileDetailJunit exCovDataRegions 95 "policy/a/b.rego"
        = DetailLine.fileLine false (lastSegment "policy/a/b.rego")
            (pyRound2 exCovFileRegions.coverage) (some (4, 4 + 6)) ::
          DetailLine.uncoveredHeader ::
          exCovFileRegions.not_covered.map (fun r =>
            if r.startRow = r.endRow then DetailLine.regionSingle r.startRow
            else DetailLine.regionRange r.startRow r.endRow)) :=
  region_detail_formats exCovDataRegions 95 "policy/a/b.rego" exCovFileRegions 4 6
    (by decide) (by decide) (by decide) (by decide) (by decide)
